import Mathlib

/-!
Verification development for the `serde_binary_adv` binary serialization codec.

The Rust sources are shallowly embedded: byte buffers and Rust `String`s are
`List Nat` (each element a byte value), machine integers are `Nat` with explicit
`% 2 ^ w` where the Rust code can wrap, fallible Rust functions land in
`Except BinaryError` (for `Result`) or in `RResult` (which additionally records
panics from `.unwrap()`, `unimplemented!()` and out-of-bounds indexing).
Definitions mirror `src/serde_binary_adv/common.rs`, `ser.rs`, `de.rs`,
`stream/ser.rs` and `stream/de.rs`; each definition's doc comment names the
source item it embeds.
-/

namespace SerdeBinaryAdv

/-- The error enum of `binaryerror.rs` (`BinaryError`).  Rust `String` payloads of
`InvalidName` are modelled as UTF-8 byte lists; free-form `Message` text stays a
Lean `String` (its content never influences control flow in the embedded code). -/
inductive BinaryError where
  | Message (message : String)
  | UnexpectedEndOfInput
  | InvalidBytes
  | MissingOrInvalidFlag (actual expected : Nat)
  | InvalidLength (actual expected : Nat)
  | InvalidName (actual expected : List Nat)
  | UnexpectedType
  deriving DecidableEq, Repr

/-- Outcome of running a piece of Rust code that can return `Ok`, return `Err`, or
abort the process: `.panicked` stands for a Rust panic (`.unwrap()` on an `Err`,
`unimplemented!()`, or an out-of-bounds slice index). -/
inductive RResult (α : Type) where
  | ok (a : α)
  | err (e : BinaryError)
  | panicked
  deriving DecidableEq, Repr

/-- Rust `Result::unwrap()`: the value on `Ok`, a panic on `Err`. -/
def unwrapE {α : Type} : Except BinaryError α → RResult α
  | .ok a => .ok a
  | .error _ => .panicked

/-- Rust `?` on a `Result`: the value on `Ok`, early return of the error on `Err`. -/
def propagateE {α : Type} : Except BinaryError α → RResult α
  | .ok a => .ok a
  | .error e => .err e

/-- Rust `.unwrap()` applied to an already-modelled `RResult`: an `Err` becomes a panic. -/
def unwrapR {α : Type} : RResult α → RResult α
  | .ok a => .ok a
  | .err _ => .panicked
  | .panicked => .panicked

/-- Rust slice indexing `bytes[i]`: the element when in bounds, a panic otherwise. -/
def getByte (bytes : List Nat) (i : Nat) : RResult Nat :=
  match bytes[i]? with
  | some b => .ok b
  | none => .panicked

/-- `flags::NONE` (`common.rs` line 4). -/
def NONE : Nat := 0x00

/-- `flags::SOME` (`common.rs` line 5). -/
def SOME : Nat := 0xFF

/-- `flags::UNIT_VARIANT` (`common.rs` line 6). -/
def UNIT_VARIANT : Nat := 0xFE

/-- `flags::NONUNIT_VARIANT` (`common.rs` line 7). -/
def NONUNIT_VARIANT : Nat := 0xFD

/-- `flags::STRUCT_VARIANT` (`common.rs` line 8). -/
def STRUCT_VARIANT : Nat := 0xFC

/-- Modelled from the spec: `ser.rs` and `de.rs` import a constant `flags::STRUCT`
whose definition is not among the provided sources (the `flags` module in
`common.rs` lacks it); the discriminator table in spec section 4.4 fixes the
struct marker to `0xFD`. -/
def STRUCT : Nat := 0xFD

/-- `BITS_0_3` (`common.rs` line 16). -/
def BITS_0_3 : Nat := 0b00001111

/-- `BITS_0_4` (`common.rs` line 17). -/
def BITS_0_4 : Nat := 0b00011111

/-- `BITS_0_6` (`common.rs` line 18). -/
def BITS_0_6 : Nat := 0b01111111

/-- `BITS_0_7` (`common.rs` line 19). -/
def BITS_0_7 : Nat := 0b11111111

/-- `BITS_4_7` (`common.rs` line 20). -/
def BITS_4_7 : Nat := 0b11110000

/-- `BITS_5_7` (`common.rs` line 21). -/
def BITS_5_7 : Nat := 0b11100000

/-- `BIT_7` exactly as written in `common.rs` line 22: `0b1000000`, i.e. `0x40`
(bit 6), not `0x80`. -/
def BIT_7 : Nat := 0b1000000

/-- The `while v > 0` byte-emission loop shared by `compress_usize`
(`common.rs` lines 158-162) and the trailing loop of `compress`: emit the low
8 bits, shift right by 8, until the value is exhausted.  The list of emitted
bytes is returned; the loop counter is its length. -/
def tailBytes (v : Nat) : List Nat :=
  match v with
  | 0 => []
  | w + 1 => ((w + 1) &&& 0xFF) :: tailBytes ((w + 1) >>> 8)
termination_by v
decreasing_by
  rw [Nat.shiftRight_eq_div_pow]
  exact Nat.div_lt_self (Nat.succ_pos w) (by norm_num)

/-- `compress_usize` (`common.rs` lines 142-165): emit `value` itself when it fits
in 7 bits, otherwise a first byte with the high bit set and the low 7 bits of the
value, a second byte carrying the next 5 bits in its low bits and the tail length
in its high 3 bits (`res[1] |= byte_counter << 5`, a `u8` shift), then the tail
bytes, 8 bits each. -/
def compress_usize (value : Nat) : List Nat :=
  if value ≤ 0b01111111 then [value]
  else
    let v1 := value >>> 7
    let v2 := v1 >>> 5
    let tail := tailBytes v2
    (0b10000000 ||| (value &&& 0b01111111)) ::
      ((0b00011111 &&& v1) ||| (((tail.length % 256) <<< 5) % 256)) :: tail

/-- The accumulation loop of `decompress_usize` (`common.rs` lines 205-207): fold
each byte in at the current shift (starting at 12, stepping by 8).  The shifts are
Rust `usize` shifts, so bits at or above position 64 are discarded. -/
def foldShift (acc shl : Nat) : List Nat → Nat
  | [] => acc
  | b :: t => foldShift (acc ||| ((b <<< shl) % 2 ^ 64)) (shl + 8) t

/-- `decompress_usize` (`common.rs` lines 168-209): inverse of `compress_usize`.
All three failure paths use `InvalidLength` with `expected = size_of::<usize>()`,
that is 8. -/
def decompress_usize (bytes : List Nat) : Except BinaryError Nat :=
  match bytes with
  | [] => .error (.InvalidLength 0 8)
  | b0 :: rest0 =>
    if b0 &&& 0b10000000 = 0 then .ok b0
    else
      match rest0 with
      | [] => .error (.InvalidLength 1 8)
      | b1 :: rest1 =>
        let len := (b1 &&& 0b11100000) >>> 5
        if rest1.length + 2 < len + 2 then .error (.InvalidLength (rest1.length + 2) 8)
        else
          let v := (b0 &&& 0b01111111) ||| ((b1 &&& 0b00011111) <<< 7)
          if len = 0 then .ok v
          else .ok (foldShift v 12 (rest1.take len))

/-- The bounded loop `while v > 0 && byte_counter < 7` of `compress`
(`common.rs` lines 48-53): at most `fuel` bytes are emitted; the value left
after the loop is returned alongside the emitted bytes. -/
def midBytes (fuel v : Nat) : List Nat × Nat :=
  match fuel with
  | 0 => ([], v)
  | f + 1 =>
    if v > 0 then
      let r := midBytes f (v >>> 8)
      ((v &&& 0xFF) :: r.1, r.2)
    else ([], v)

/-- `compress` (`common.rs` lines 26-75): the generic extended-range count encoder,
embedded exactly as written, including the mis-defined `BIT_7` (`0x40`) used as the
continuation bit of byte 0, and the final `res[8] = res[8] & (byte_counter << 4)`
(an `AND`) for values that reach the 10+ byte form.  `u8` casts are `% 256`. -/
def compress (value : Nat) : List Nat :=
  if value ≤ BITS_0_6 then [(value &&& BITS_0_6) % 256]
  else
    let b0 := (BIT_7 ||| (value &&& BITS_0_6)) % 256
    let va := value >>> 7
    let b1 := (va &&& BITS_0_4) % 256
    let vb := va >>> 5
    let mid := midBytes 7 vb
    if mid.2 > 0 then
      let nine := (mid.2 &&& BITS_0_3) % 256
      let vd := mid.2 >>> 4
      let c2 := mid.1.length + 1
      let b1a := b1 ||| (((c2 % 256) <<< 5) % 256)
      let tail2 := tailBytes vd
      let nine2 :=
        if tail2.length > 0 then nine &&& (((tail2.length % 256) <<< 4) % 256) else nine
      b0 :: b1a :: (mid.1 ++ nine2 :: tail2)
    else
      let b1a := b1 ||| (((mid.1.length % 256) <<< 5) % 256)
      b0 :: b1a :: mid.1

/-- A `for i in lo..stop` accumulation loop of `decompress` (`common.rs` lines
116-121 and 130-135): fold `bytes[i + 2]` in at the running shift.  The value is a
Rust `u128`, so shifted-out bits above position 128 are discarded; out-of-bounds
indexing panics. -/
def decompressLoop (bytes : List Nat) (i stop v shl : Nat) : RResult (Nat × Nat) :=
  if _h : i ≥ stop then .ok (v, shl)
  else
    match getByte bytes (i + 2) with
    | .ok b => decompressLoop bytes (i + 1) stop ((v ||| ((b <<< shl) % 2 ^ 128)) % 2 ^ 128) (shl + 8)
    | .err e => .err e
    | .panicked => .panicked
termination_by stop - i

/-- `decompress` (`common.rs` lines 77-138): the generic extended-range count
decoder.  It tests byte 0 against `BIT_7 as u8` (`0x40`), computes the total
length from byte 1 (and byte 8 when the 3-bit tail count is 7) before any bounds
check on those indices, then reconstructs the value. -/
def decompress (bytes : List Nat) : RResult Nat :=
  if bytes.length = 0 then .err (.InvalidLength 0 8)
  else
    match getByte bytes 0 with
    | .err e => .err e
    | .panicked => .panicked
    | .ok b0 =>
      if b0 &&& (BIT_7 % 256) = 0 then .ok b0
      else
        match getByte bytes 1 with
        | .err e => .err e
        | .panicked => .panicked
        | .ok b1 =>
          let k := (b1 &&& BITS_5_7) >>> 5
          match (if k = 7 then
                  match getByte bytes 8 with
                  | .ok b8 => RResult.ok ((b8 &&& BITS_4_7) >>> 4)
                  | .err e => RResult.err e
                  | .panicked => RResult.panicked
                else RResult.ok 0) with
          | .err e => .err e
          | .panicked => .panicked
          | .ok extra =>
            let total_len := 2 + k + extra
            if bytes.length < total_len then .err (.InvalidLength bytes.length total_len)
            else
              let v0 := ((b0 &&& BITS_0_6) ||| (((b1 &&& BITS_0_4) <<< 7) % 2 ^ 128)) % 2 ^ 128
              match (if 2 < total_len then decompressLoop bytes 2 (min total_len 7) v0 12
                     else .ok (v0, 12)) with
              | .err e => .err e
              | .panicked => .panicked
              | .ok (va, shla) =>
                match (if 8 < total_len then
                        match getByte bytes 8 with
                        | .ok b8 =>
                          RResult.ok (((va ||| (((b8 &&& BITS_0_3) <<< shla) % 2 ^ 128)) % 2 ^ 128),
                            shla + 4)
                        | .err e => RResult.err e
                        | .panicked => RResult.panicked
                      else RResult.ok (va, shla)) with
                | .err e => .err e
                | .panicked => .panicked
                | .ok (vb, shlb) =>
                  match (if 9 < total_len then decompressLoop bytes 9 total_len vb shlb
                         else .ok (vb, shlb)) with
                  | .err e => .err e
                  | .panicked => .panicked
                  | .ok (vc, _) => .ok vc

/-- Rust's test for a UTF-8 continuation byte (`0x80..=0xBF`). -/
def contB (b : Nat) : Bool := 0x80 ≤ b && b ≤ 0xBF

/-- UTF-8 well-formedness of a byte list, as checked by Rust's
`String::from_utf8`: ASCII, the two-byte form `C2..DF`, the three-byte forms
with their `E0`/`ED` second-byte restrictions, and the four-byte forms with
their `F0`/`F4` second-byte restrictions. -/
def validUtf8 : List Nat → Bool
  | [] => true
  | b :: rest =>
    if b ≤ 0x7F then validUtf8 rest
    else if 0xC2 ≤ b && b ≤ 0xDF then
      match rest with
      | c1 :: r => contB c1 && validUtf8 r
      | [] => false
    else if b = 0xE0 then
      match rest with
      | c1 :: c2 :: r => (0xA0 ≤ c1 && c1 ≤ 0xBF) && contB c2 && validUtf8 r
      | _ => false
    else if (0xE1 ≤ b && b ≤ 0xEC) || (0xEE ≤ b && b ≤ 0xEF) then
      match rest with
      | c1 :: c2 :: r => contB c1 && contB c2 && validUtf8 r
      | _ => false
    else if b = 0xED then
      match rest with
      | c1 :: c2 :: r => (0x80 ≤ c1 && c1 ≤ 0x9F) && contB c2 && validUtf8 r
      | _ => false
    else if b = 0xF0 then
      match rest with
      | c1 :: c2 :: c3 :: r => (0x90 ≤ c1 && c1 ≤ 0xBF) && contB c2 && contB c3 && validUtf8 r
      | _ => false
    else if 0xF1 ≤ b && b ≤ 0xF3 then
      match rest with
      | c1 :: c2 :: c3 :: r => contB c1 && contB c2 && contB c3 && validUtf8 r
      | _ => false
    else if b = 0xF4 then
      match rest with
      | c1 :: c2 :: c3 :: r => (0x80 ≤ c1 && c1 ≤ 0x8F) && contB c2 && contB c3 && validUtf8 r
      | _ => false
    else false

/-- Rust `char::encode_utf8`: the 1-4 UTF-8 bytes of a Unicode scalar value. -/
def utf8Encode (c : Nat) : List Nat :=
  if c < 0x80 then [c]
  else if c < 0x800 then [0xC0 ||| (c >>> 6), 0x80 ||| (c &&& 0x3F)]
  else if c < 0x10000 then
    [0xE0 ||| (c >>> 12), 0x80 ||| ((c >>> 6) &&& 0x3F), 0x80 ||| (c &&& 0x3F)]
  else
    [0xF0 ||| (c >>> 18), 0x80 ||| ((c >>> 12) &&& 0x3F),
      0x80 ||| ((c >>> 6) &&& 0x3F), 0x80 ||| (c &&& 0x3F)]

/-- Rust `s.chars().next()` on a `String` built from the given (valid) UTF-8
bytes: the first Unicode scalar value, if any. -/
def utf8DecodeFirst : List Nat → Option Nat
  | [] => none
  | b :: rest =>
    if b < 0x80 then some b
    else if b < 0xE0 then
      match rest with
      | c1 :: _ => some (((b &&& 0x1F) <<< 6) ||| (c1 &&& 0x3F))
      | [] => none
    else if b < 0xF0 then
      match rest with
      | c1 :: c2 :: _ => some ((((b &&& 0x0F) <<< 12) ||| ((c1 &&& 0x3F) <<< 6)) ||| (c2 &&& 0x3F))
      | _ => none
    else
      match rest with
      | c1 :: c2 :: c3 :: _ =>
        some (((((b &&& 0x07) <<< 18) ||| ((c1 &&& 0x3F) <<< 12)) ||| ((c2 &&& 0x3F) <<< 6)) |||
          (c3 &&& 0x3F))
      | _ => none

/-- Little-endian byte interpretation, Rust `<T>::from_le_bytes`. -/
def from_le_bytes : List Nat → Nat
  | [] => 0
  | b :: t => b + 256 * from_le_bytes t

/-- Big-endian byte interpretation, Rust `<T>::from_be_bytes`. -/
def from_be_bytes (l : List Nat) : Nat := from_le_bytes l.reverse

/-- Little-endian bytes of a 32-bit value, Rust `u32::to_le_bytes`. -/
def u32_le_bytes (v : Nat) : List Nat :=
  [v % 256, (v >>> 8) % 256, (v >>> 16) % 256, (v >>> 24) % 256]

/-- `Serializer::serialize_num::<u32>` (`ser.rs` lines 38-45): the four bytes of a
32-bit value in the configured order. -/
def u32_bytes (big : Bool) (v : Nat) : List Nat :=
  if big then (u32_le_bytes v).reverse else u32_le_bytes v

namespace De

/-- `Deserializer::next` (`de.rs` lines 81-87): pop the front byte of the buffered
input, `UnexpectedEndOfInput` when empty.  The deserializer state is the list of
remaining bytes. -/
def next (data : List Nat) : Except BinaryError (Nat × List Nat) :=
  match data with
  | [] => .error .UnexpectedEndOfInput
  | b :: rest => .ok (b, rest)

/-- `Deserializer::peek` (`de.rs` lines 73-79): the front byte without consuming it. -/
def peek (data : List Nat) : Except BinaryError Nat :=
  match data with
  | [] => .error .UnexpectedEndOfInput
  | b :: _ => .ok b

/-- `Deserializer::take` (`de.rs` lines 89-98): split off the first `len` bytes,
`UnexpectedEndOfInput` when fewer remain. -/
def take (len : Nat) (data : List Nat) : Except BinaryError (List Nat × List Nat) :=
  if data.length < len then .error .UnexpectedEndOfInput
  else .ok (data.take len, data.drop len)

/-- The `for _ in 0..extra_bytes` loop of `Deserializer::next_usize` (`de.rs` lines
107-111): `k` unwrapped `next()` calls, collecting the bytes read. -/
def nextN (k : Nat) (data : List Nat) : RResult (List Nat × List Nat) :=
  match k with
  | 0 => .ok ([], data)
  | j + 1 =>
    match next data with
    | .error _ => .panicked
    | .ok (b, rest) =>
      match nextN j rest with
      | .ok (bs, r2) => .ok (b :: bs, r2)
      | .err e => .err e
      | .panicked => .panicked

/-- `Deserializer::next_usize` (`de.rs` lines 102-114): read the first count byte;
when its high bit is set, read the second byte and then as many tail bytes as its
top 3 bits announce; finally `decompress_usize(..).unwrap()`.  Every read is
`.unwrap()`ed, so running out of input panics. -/
def next_usize (data : List Nat) : RResult (Nat × List Nat) :=
  match next data with
  | .error _ => .panicked
  | .ok (b0, rest) =>
    if b0 &&& 0b10000000 ≠ 0 then
      match next rest with
      | .error _ => .panicked
      | .ok (b1, rest1) =>
        match nextN ((b1 &&& 0b11100000) >>> 5) rest1 with
        | .ok (tl, rest2) =>
          match decompress_usize (b0 :: b1 :: tl) with
          | .ok n => .ok (n, rest2)
          | .error _ => .panicked
        | .err _ => .panicked
        | .panicked => .panicked
    else
      match decompress_usize [b0] with
      | .ok n => .ok (n, rest)
      | .error _ => .panicked

/-- `Deserializer::take_string` (`de.rs` lines 116-119):
`next_usize().unwrap()`, `take(size).unwrap()`, `String::from_utf8(..).unwrap()`.
The resulting Rust `String` is modelled as its UTF-8 byte list. -/
def take_string (data : List Nat) : RResult (List Nat × List Nat) :=
  match unwrapR (next_usize data) with
  | .ok (size, rest) =>
    match take size rest with
    | .ok (bs, rest2) => if validUtf8 bs then .ok (bs, rest2) else .panicked
    | .error _ => .panicked
  | .err e => .err e
  | .panicked => .panicked

/-- `Deserializer::next_u32` (`de.rs` line 100, via `impl_next_uxx!`):
`take(4).unwrap()` then `from_le_bytes`/`from_be_bytes`. -/
def next_u32 (big : Bool) (data : List Nat) : RResult (Nat × List Nat) :=
  match take 4 data with
  | .error _ => .panicked
  | .ok (bs, rest) => .ok ((if big then from_be_bytes bs else from_le_bytes bs), rest)

/-- `deserialize_bool` (`de.rs` lines 134-139):
`visitor.visit_bool(self.next().unwrap() != 0x00)`. -/
def deserialize_bool (data : List Nat) : RResult (Bool × List Nat) :=
  match next data with
  | .error _ => .panicked
  | .ok (b, rest) => .ok (b != 0x00, rest)

/-- `deserialize_u8` (`de.rs` lines 148-153): `visit_u8(self.next().unwrap())`. -/
def deserialize_u8 (data : List Nat) : RResult (Nat × List Nat) :=
  match next data with
  | .error _ => .panicked
  | .ok (b, rest) => .ok (b, rest)

/-- `deserialize_i8` (`de.rs` lines 141-146): `visit_i8(self.next().unwrap() as i8)`;
the `as i8` cast is two's complement. -/
def deserialize_i8 (data : List Nat) : RResult (Int × List Nat) :=
  match next data with
  | .error _ => .panicked
  | .ok (b, rest) => .ok ((if b < 128 then (b : Int) else (b : Int) - 256), rest)

/-- The numeric decoders generated by `impl_deserialize_num!` (`de.rs` lines 14-31,
instantiated at lines 125-132 for u16/u32/u64/i16/i32/i64/f32/f64):
`take(size_of::<T>()).unwrap()` then a byte-order-dependent reinterpretation.
The value is the unsigned interpretation of the bytes; signed and floating
variants reinterpret the same bit pattern. -/
def deserialize_uN (size : Nat) (big : Bool) (data : List Nat) : RResult (Nat × List Nat) :=
  match take size data with
  | .error _ => .panicked
  | .ok (bs, rest) => .ok ((if big then from_be_bytes bs else from_le_bytes bs), rest)

/-- Signed counterpart of `deserialize_uN`: the same bytes, interpreted as a
two's-complement integer of `8 * size` bits. -/
def deserialize_iN (size : Nat) (big : Bool) (data : List Nat) : RResult (Int × List Nat) :=
  match deserialize_uN size big data with
  | .ok (n, rest) =>
    .ok ((if n < 2 ^ (8 * size - 1) then (n : Int) else (n : Int) - 2 ^ (8 * size)), rest)
  | .err e => .err e
  | .panicked => .panicked

/-- `deserialize_char` (`de.rs` lines 155-190): peek the leading byte (unwrapped),
take 1/2/3/4 bytes in total according to its range (each `take` unwrapped),
`String::from_utf8(..).unwrap()`, then the first scalar (`.next().unwrap()`).
A leading byte in `0x80..=0xBF` returns `InvalidBytes`. -/
def deserialize_char (data : List Nat) : RResult (Nat × List Nat) :=
  match peek data with
  | .error _ => .panicked
  | .ok b =>
    let tl : RResult Nat :=
      if b ≤ 0x7F then .ok 1
      else if 0xC0 ≤ b && b ≤ 0xDF then .ok 2
      else if 0xE0 ≤ b && b ≤ 0xEF then .ok 3
      else if 0xF0 ≤ b && b ≤ 0xFF then .ok 4
      else .err .InvalidBytes
    match tl with
    | .err e => .err e
    | .panicked => .panicked
    | .ok n =>
      match take n data with
      | .error _ => .panicked
      | .ok (bs, rest) =>
        if validUtf8 bs then
          match utf8DecodeFirst bs with
          | some c => .ok (c, rest)
          | none => .panicked
        else .panicked

/-- `deserialize_str` (`de.rs` lines 192-197): `visit_str(&self.take_string())`. -/
def deserialize_str (data : List Nat) : RResult (List Nat × List Nat) :=
  take_string data

/-- `deserialize_bytes` (`de.rs` lines 206-213): `next_usize().unwrap()`,
`take(len).unwrap()`, `visit_bytes`. -/
def deserialize_bytes (data : List Nat) : RResult (List Nat × List Nat) :=
  match unwrapR (next_usize data) with
  | .ok (len, rest) =>
    match take len rest with
    | .error _ => .panicked
    | .ok (bs, rest2) => .ok (bs, rest2)
  | .err e => .err e
  | .panicked => .panicked

/-- `deserialize_option` (`de.rs` lines 222-237): read the flag byte (unwrapped);
`0x00` visits none, `0xFF` visits some with the payload parser, anything else is
`MissingOrInvalidFlag { actual, expected: SOME }`. -/
def deserialize_option {α : Type} (payload : List Nat → RResult (α × List Nat))
    (data : List Nat) : RResult (Option α × List Nat) :=
  match next data with
  | .error _ => .panicked
  | .ok (flag, rest) =>
    if flag = NONE then .ok (none, rest)
    else if flag = SOME then
      match payload rest with
      | .ok (v, rest2) => .ok (some v, rest2)
      | .err e => .err e
      | .panicked => .panicked
    else .err (.MissingOrInvalidFlag flag SOME)

/-- Element loop of a driver visiting a `BinarySeries` of known length: `n`
element reads in sequence, as performed by a derived `visit_seq` that consumes
elements until the series signals its end. -/
def seqElems {α : Type} (elem : List Nat → RResult (α × List Nat)) :
    Nat → List Nat → RResult (List α × List Nat)
  | 0, data => .ok ([], data)
  | n + 1, data =>
    match elem data with
    | .ok (v, rest) =>
      match seqElems elem n rest with
      | .ok (vs, rest2) => .ok (v :: vs, rest2)
      | .err e => .err e
      | .panicked => .panicked
    | .err e => .err e
    | .panicked => .panicked

/-- `deserialize_seq` (`de.rs` lines 261-267): `next_usize().unwrap()` for the
element count, then `visit_seq(BinarySeries::new(self, len))`, whose bounded
iteration delivers exactly `len` elements to the driver. -/
def deserialize_seq {α : Type} (elem : List Nat → RResult (α × List Nat))
    (data : List Nat) : RResult (List α × List Nat) :=
  match unwrapR (next_usize data) with
  | .ok (len, rest) => seqElems elem len rest
  | .err e => .err e
  | .panicked => .panicked

/-- Entry loop of a driver visiting a map `BinarySeries`: `n` key/value pairs. -/
def mapEntries {α β : Type} (key : List Nat → RResult (α × List Nat))
    (value : List Nat → RResult (β × List Nat)) :
    Nat → List Nat → RResult (List (α × β) × List Nat)
  | 0, data => .ok ([], data)
  | n + 1, data =>
    match key data with
    | .ok (k, rest) =>
      match value rest with
      | .ok (v, rest2) =>
        match mapEntries key value n rest2 with
        | .ok (kvs, rest3) => .ok ((k, v) :: kvs, rest3)
        | .err e => .err e
        | .panicked => .panicked
      | .err e => .err e
      | .panicked => .panicked
    | .err e => .err e
    | .panicked => .panicked

/-- `deserialize_map` (`de.rs` lines 288-294): `next_usize().unwrap()` for the entry
count, then `visit_map(BinarySeries::new(self, len))`. -/
def deserialize_map {α β : Type} (key : List Nat → RResult (α × List Nat))
    (value : List Nat → RResult (β × List Nat)) (data : List Nat) :
    RResult (List (α × β) × List Nat) :=
  match unwrapR (next_usize data) with
  | .ok (len, rest) => mapEntries key value len rest
  | .err e => .err e
  | .panicked => .panicked

/-- `deserialize_struct` (`de.rs` lines 296-324) up to its final
`visit_seq(BinarySeries::new(..))` call: read the marker byte (unwrapped), reject a
non-`STRUCT` marker with `MissingOrInvalidFlag`, read the embedded name with
`take_string`, reject a name different from the caller's with
`InvalidName { actual: dname, expected: name }`, then read the field count with
`next_usize().unwrap()`.  On success the field count and remaining bytes are
handed to the visitor. -/
def deserialize_struct_header (name : List Nat) (data : List Nat) :
    RResult (Nat × List Nat) :=
  match next data with
  | .error _ => .panicked
  | .ok (struct_flag, rest) =>
    if struct_flag ≠ STRUCT then .err (.MissingOrInvalidFlag struct_flag STRUCT)
    else
      match take_string rest with
      | .ok (dname, rest2) =>
        if dname ≠ name then .err (.InvalidName dname name)
        else
          match unwrapR (next_usize rest2) with
          | .ok (len, rest3) => .ok (len, rest3)
          | .err e => .err e
          | .panicked => .panicked
      | .err e => .err e
      | .panicked => .panicked

end De

/-- Position bookkeeping outcome of one `BinarySeries` call. -/
inductive SeriesOutcome where
  | element (position : Nat)
  | endOfSeq (position : Nat)
  | lengthError (actual expected : Nat)
  deriving DecidableEq, Repr

/-- `BinarySeries::next_element_seed` / `next_key_seed` control flow (`de.rs` lines
385-403 and 408-422, identical in `stream/de.rs`): increment `position`; when it
equals `len + 1` answer `Ok(None)` (end of the series); when it exceeds `len`
otherwise answer `Err(InvalidLength { actual: position, expected: len })`;
otherwise delegate to the seed, yielding the next element. -/
def series_next (len position : Nat) : SeriesOutcome :=
  let p := position + 1
  if p = len + 1 then .endOfSeq p
  else if p > len then .lengthError p len
  else .element p

/-- The enum `TestEnum { NewTypeVariant(u8), .. }` of the crate's own test module
(`serde_binary_adv.rs` lines 36-42), restricted to the variant exercised here. -/
inductive EnumA where
  | A (v : Nat)
  deriving DecidableEq, Repr

/-- UTF-8 bytes of the variant name `"A"`. -/
def enumAName : List Nat := [0x41]

namespace Ser

/-- `serialize_u8` (`ser.rs` lines 71-73): one byte, identical in both orders. -/
def serialize_u8 (v : Nat) : List Nat := [v % 256]

/-- `serialize_str` (`ser.rs` lines 116-119): `compress_usize` of the byte length,
then the UTF-8 bytes. -/
def serialize_str (s : List Nat) : List Nat := compress_usize s.length ++ s

/-- `serialize_bytes` (`ser.rs` lines 121-125): `compress_usize` of the length,
then the raw bytes; always `Ok`. -/
def serialize_bytes (v : List Nat) : RResult (List Nat) :=
  .ok (compress_usize v.length ++ v)

/-- `serialize_struct` (`ser.rs` lines 226-231): push the `STRUCT` marker, the
struct's name as a string, then `compress_usize` of the field count.  Field values
follow via `SerializeStruct::serialize_field` (lines 336-350), which append each
field's own encoding and never the field name. -/
def serialize_struct_head (name : List Nat) (len : Nat) : List Nat :=
  STRUCT :: (serialize_str name ++ compress_usize len)

/-- UTF-8 bytes of the struct name `"Point"`. -/
def pointName : List Nat := [0x50, 0x6F, 0x69, 0x6E, 0x74]

/-- `Serializer::to_bytes` of `Point { x, y }` with `x y : u8`: the derived driver
calls `serialize_struct("Point", 2)` and then `serialize_field` for `x` and `y` in
declared order. -/
def to_bytes_Point (_big : Bool) (x y : Nat) : List Nat :=
  serialize_struct_head pointName 2 ++ serialize_u8 x ++ serialize_u8 y

/-- `Serializer::to_bytes` of `EnumA::A(v)`: the derived driver calls
`serialize_newtype_variant(name, 0, "A", v)` (`ser.rs` lines 164-176), which
serializes the `u32` variant index in the configured order and then the payload --
no discriminator byte and no variant name. -/
def to_bytes_EnumA (big : Bool) : EnumA → List Nat
  | .A v => u32_bytes big 0 ++ serialize_u8 v

end Ser

namespace De

/-- `Deserializer::from_bytes::<TestEnum>` specialised to the single-newtype-variant
enum `EnumA` (`de.rs` lines 326-342 with the derived driver):
`deserialize_enum` consumes one byte (unwrapped); if it equals `UNIT_VARIANT`, the
`u32` index is read and the variant name at that index looked up (a Rust index
panic when out of range) and handed to `visit_enum(variant.into_deserializer())`,
whose variant access supports only unit variants - `EnumA`'s sole variant is a
newtype variant, so the derived visitor reports an invalid-type error.
Otherwise `Enum::variant_seed` (lines 446-451) deserializes the variant identifier
via `deserialize_identifier`, i.e. `visit_string(self.take_string())`, and
`.unwrap()`s the driver's answer: an unknown variant name panics; the known name
continues with `newtype_variant_seed`, which reads the `u8` payload. -/
def from_bytes_EnumA (big : Bool) (data : List Nat) : RResult (EnumA × List Nat) :=
  match next data with
  | .error _ => .panicked
  | .ok (flag, rest) =>
    if flag = UNIT_VARIANT then
      match next_u32 big rest with
      | .ok (idx, _) =>
        match [enumAName][idx]? with
        | none => .panicked
        | some _ => .err (.Message "invalid type: unit variant")
      | .err e => .err e
      | .panicked => .panicked
    else
      match take_string rest with
      | .ok (vname, rest2) =>
        if vname = enumAName then
          match deserialize_u8 rest2 with
          | .ok (v, rest3) => .ok (.A v, rest3)
          | .err e => .err e
          | .panicked => .panicked
        else .panicked
      | .err e => .err e
      | .panicked => .panicked

end De

namespace Stream

namespace Ser

/-- `stream::ser::Serializer::serialize_char` (`stream/ser.rs` lines 133-136): the
UTF-8 bytes of the scalar, written to the sink in order. -/
def serialize_char (c : Nat) : List Nat := utf8Encode c

/-- `stream::ser::Serializer::serialize_bytes` (`stream/ser.rs` lines 143-145):
`unimplemented!()` - an unconditional panic, whatever the input. -/
def serialize_bytes (_v : List Nat) : RResult (List Nat) := .panicked

end Ser

namespace De

/-- `stream::de::Deserializer::next` (`stream/de.rs` lines 109-123): one byte from
the pull source; a short read is `UnexpectedEndOfInput`.  The source is modelled as
the list of bytes it will deliver. -/
def next (src : List Nat) : Except BinaryError (Nat × List Nat) :=
  match src with
  | [] => .error .UnexpectedEndOfInput
  | b :: rest => .ok (b, rest)

/-- `stream::de::Deserializer::take` (`stream/de.rs` lines 125-139): `len` bytes
from the source; fewer available is `UnexpectedEndOfInput`. -/
def take (len : Nat) (src : List Nat) : Except BinaryError (List Nat × List Nat) :=
  if src.length < len then .error .UnexpectedEndOfInput
  else .ok (src.take len, src.drop len)

/-- `stream::de::Deserializer::deserialize_char` (`stream/de.rs` lines 205-242):
read the leading byte with `?`, then - as written in the source - `take(1)` more
bytes for `0xC0..=0xDF`, `take(3)` more for `0xE0..=0xEF` and `take(4)` more for
`0xF0..=0xFF`; `0x80..=0xBF` is `InvalidBytes`.  The collected bytes go through
`String::from_utf8` (failure mapped to `Message`) and the first scalar is
visited. -/
def deserialize_char (src : List Nat) : Except BinaryError (Nat × List Nat) :=
  match next src with
  | .error e => .error e
  | .ok (b0, s1) =>
    let step : Except BinaryError (List Nat × List Nat) :=
      if b0 ≤ 0x7F then .ok ([], s1)
      else if 0xC0 ≤ b0 && b0 ≤ 0xDF then take 1 s1
      else if 0xE0 ≤ b0 && b0 ≤ 0xEF then take 3 s1
      else if 0xF0 ≤ b0 && b0 ≤ 0xFF then take 4 s1
      else .error .InvalidBytes
    match step with
    | .error e => .error e
    | .ok (extra, s2) =>
      let bytes := b0 :: extra
      if validUtf8 bytes then
        match utf8DecodeFirst bytes with
        | some c => .ok (c, s2)
        | none => .error (.Message "failed to decode character")
      else .error (.Message "invalid utf-8")

/-- `stream::de::Deserializer::deserialize_bytes` (`stream/de.rs` lines 259-264):
`unimplemented!()` - an unconditional panic, whatever the source holds. -/
def deserialize_bytes (_src : List Nat) : RResult (List Nat × List Nat) := .panicked

/-- `stream::de::Deserializer::deserialize_byte_buf` (`stream/de.rs` lines 266-271):
`unimplemented!()` - an unconditional panic, whatever the source holds. -/
def deserialize_byte_buf (_src : List Nat) : RResult (List Nat × List Nat) := .panicked

end De

end Stream

/-! Helper lemmas: bitwise operations as arithmetic. -/

theorem and_mask_127 (x : Nat) : x &&& 127 = x % 128 := by
  have h := Nat.and_pow_two_sub_one_eq_mod x 7
  norm_num at h
  exact h

theorem and_mask_31 (x : Nat) : x &&& 31 = x % 32 := by
  have h := Nat.and_pow_two_sub_one_eq_mod x 5
  norm_num at h
  exact h

theorem and_mask_255 (x : Nat) : x &&& 255 = x % 256 := by
  have h := Nat.and_pow_two_sub_one_eq_mod x 8
  norm_num at h
  exact h

theorem shr_7_eq (x : Nat) : x >>> 7 = x / 128 := by
  rw [Nat.shiftRight_eq_div_pow]

theorem shr_5_eq (x : Nat) : x >>> 5 = x / 32 := by
  rw [Nat.shiftRight_eq_div_pow]

theorem shr_8_eq (x : Nat) : x >>> 8 = x / 256 := by
  rw [Nat.shiftRight_eq_div_pow]

/-- An or of disjoint ranges is a sum: when `a` fits below the shift, `a ||| b * 2 ^ s`
is plain addition. -/
theorem lor_mul_pow (a b s : Nat) (h : a < 2 ^ s) : a ||| b * 2 ^ s = a + b * 2 ^ s := by
  apply Nat.eq_of_testBit_eq
  intro j
  have h2 : a + b * 2 ^ s = 2 ^ s * b + a := by ring
  rw [h2, Nat.testBit_mul_pow_two_add b h j, Nat.testBit_lor]
  have hb : b * 2 ^ s = b <<< s := (Nat.shiftLeft_eq b s).symm
  rw [hb, Nat.testBit_shiftLeft]
  by_cases hj : j < s
  · have hge : ¬(j ≥ s) := by omega
    simp [hj, hge]
  · have hge : j ≥ s := by omega
    have hf : a.testBit j = false :=
      Nat.testBit_lt_two_pow (lt_of_lt_of_le h (Nat.pow_le_pow_right (by norm_num) hge))
    simp [hj, hge, hf]

theorem and128_of_lt : ∀ x, x < 128 → x &&& 128 = 0 := by decide

theorem or128_and128 : ∀ x, x < 128 → (128 ||| x) &&& 128 = 128 := by decide

theorem or128_and127 : ∀ x, x < 128 → (128 ||| x) &&& 127 = x := by decide

theorem b1_and224_shr5 : ∀ y, y < 32 → ∀ L, L < 8 → ((y ||| L * 32) &&& 224) >>> 5 = L := by
  decide

theorem b1_and31 : ∀ y, y < 32 → ∀ L, L < 8 → (y ||| L * 32) &&& 31 = y := by decide

/-! Helper lemmas: the tail-byte loop. -/

theorem tailBytes_zero : tailBytes 0 = [] := by
  simp [tailBytes]

theorem tailBytes_of_pos (v : Nat) (h : 0 < v) :
    tailBytes v = (v % 256) :: tailBytes (v / 256) := by
  match v, h with
  | w + 1, _ =>
    rw [tailBytes, and_mask_255, shr_8_eq]

theorem tailBytes_eq_nil_iff (v : Nat) : tailBytes v = [] ↔ v = 0 := by
  constructor
  · intro h
    by_contra hv
    rw [tailBytes_of_pos v (Nat.pos_of_ne_zero hv)] at h
    exact List.cons_ne_nil _ _ h
  · intro h
    subst h
    exact tailBytes_zero

theorem tailBytes_length_le : ∀ (k v : Nat), v < 2 ^ (8 * k) → (tailBytes v).length ≤ k := by
  intro k
  induction k with
  | zero =>
    intro v hv
    simp only [Nat.mul_zero, pow_zero, Nat.lt_one_iff] at hv
    subst hv
    simp [tailBytes_zero]
  | succ j ih =>
    intro v hv
    by_cases h0 : v = 0
    · subst h0
      simp [tailBytes_zero]
    · rw [tailBytes_of_pos v (Nat.pos_of_ne_zero h0)]
      simp only [List.length_cons]
      have hdiv : v / 256 < 2 ^ (8 * j) := by
        apply Nat.div_lt_of_lt_mul
        calc v < 2 ^ (8 * (j + 1)) := hv
          _ = 256 * 2 ^ (8 * j) := by
            rw [Nat.mul_succ, Nat.mul_comm 8 j]
            rw [pow_add]
            ring
      have := ih (v / 256) hdiv
      omega

/-- The decoder's accumulation loop undoes the tail-byte loop: folding the base-256
digits of `v` in at successive shifts rebuilds `acc ||| v * 2 ^ s`, as long as the
shifted value stays inside the 64-bit word. -/
theorem foldShift_tailBytes (v : Nat) : ∀ acc s, v * 2 ^ s < 2 ^ 64 →
    foldShift acc s (tailBytes v) = acc ||| v * 2 ^ s := by
  induction v using Nat.strong_induction_on with
  | _ v ih =>
    intro acc s hv
    by_cases h0 : v = 0
    · subst h0
      rw [tailBytes_zero]
      simp [foldShift, Nat.or_zero]
    · have hpos : 0 < v := Nat.pos_of_ne_zero h0
      rw [tailBytes_of_pos v hpos]
      simp only [foldShift]
      have hmlt : (v % 256) <<< s < 2 ^ 64 := by
        rw [Nat.shiftLeft_eq]
        calc (v % 256) * 2 ^ s ≤ v * 2 ^ s := Nat.mul_le_mul_right _ (Nat.mod_le v 256)
          _ < 2 ^ 64 := hv
      rw [Nat.mod_eq_of_lt hmlt]
      have hdivlt : v / 256 < v := Nat.div_lt_self hpos (by norm_num)
      have hrec : (v / 256) * 2 ^ (s + 8) < 2 ^ 64 := by
        have heq : (v / 256) * 2 ^ (s + 8) = (v / 256 * 256) * 2 ^ s := by
          rw [pow_add]
          ring
        rw [heq]
        calc (v / 256 * 256) * 2 ^ s ≤ v * 2 ^ s :=
              Nat.mul_le_mul_right _ (Nat.div_mul_le_self v 256)
          _ < 2 ^ 64 := hv
      rw [ih (v / 256) hdivlt _ (s + 8) hrec]
      rw [Nat.shiftLeft_eq, Nat.lor_assoc]
      congr 1
      have ha : (v % 256) * 2 ^ s < 2 ^ (s + 8) := by
        have h8 : (2 : Nat) ^ (s + 8) = 256 * 2 ^ s := by
          rw [pow_add]
          ring
        rw [h8]
        exact Nat.mul_lt_mul_of_lt_of_le (Nat.mod_lt v (by norm_num)) (Nat.le_refl _)
          (Nat.pos_pow_of_pos s (by norm_num))
      rw [lor_mul_pow _ _ _ ha]
      have hv256 : v % 256 + 256 * (v / 256) = v := Nat.mod_add_div v 256
      calc (v % 256) * 2 ^ s + v / 256 * 2 ^ (s + 8)
          = (v % 256 + 256 * (v / 256)) * 2 ^ s := by
            rw [pow_add]
            ring
        _ = v * 2 ^ s := by rw [hv256]

/-! Helper lemmas: the usize count codec round trip. -/

theorem tail_length_le_7 (n : Nat) (h64 : n < 2 ^ 64) :
    (tailBytes (n / 4096)).length ≤ 7 := by
  apply tailBytes_length_le 7
  apply Nat.div_lt_of_lt_mul
  calc n < 2 ^ 64 := h64
    _ < 4096 * 2 ^ (8 * 7) := by norm_num

/-- Shape of `compress_usize` for 64-bit values that do not fit in 7 bits. -/
theorem compress_usize_large (n : Nat) (h : 127 < n) (h64 : n < 2 ^ 64) :
    compress_usize n =
      (128 ||| n % 128) ::
        ((n / 128 % 32 ||| (tailBytes (n / 4096)).length * 32) :: tailBytes (n / 4096)) := by
  have hn : ¬(n ≤ 127) := by omega
  have hdd : (n >>> 7) >>> 5 = n / 4096 := by
    rw [shr_7_eq, shr_5_eq, Nat.div_div_eq_div_mul]
  have hL : (tailBytes (n / 4096)).length ≤ 7 := tail_length_le_7 n h64
  have hsh : (((tailBytes (n / 4096)).length % 256) <<< 5) % 256
      = (tailBytes (n / 4096)).length * 32 := by
    rw [Nat.mod_eq_of_lt (show (tailBytes (n / 4096)).length < 256 by omega),
      Nat.shiftLeft_eq]
    have h25 : (2 : Nat) ^ 5 = 32 := by norm_num
    rw [h25]
    exact Nat.mod_eq_of_lt (by omega)
  simp only [compress_usize]
  rw [if_neg hn, hdd, and_mask_127, Nat.land_comm 31 (n >>> 7), and_mask_31, shr_7_eq, hsh]

/-- Round trip of the usize count codec for every 64-bit count. -/
theorem decompress_usize_compress_usize (n : Nat) (h64 : n < 2 ^ 64) :
    decompress_usize (compress_usize n) = .ok n := by
  by_cases h127 : n ≤ 127
  · have hc : compress_usize n = [n] := by
      simp only [compress_usize]
      rw [if_pos h127]
    rw [hc]
    simp only [decompress_usize]
    rw [if_pos (and128_of_lt n (by omega))]
  · push_neg at h127
    rw [compress_usize_large n h127 h64]
    have hL : (tailBytes (n / 4096)).length ≤ 7 := tail_length_le_7 n h64
    simp only [decompress_usize]
    have hb0 : (128 ||| n % 128) &&& 128 = 128 := or128_and128 _ (Nat.mod_lt n (by norm_num))
    rw [if_neg (by rw [hb0]; norm_num)]
    have hlen : ((n / 128 % 32 ||| (tailBytes (n / 4096)).length * 32) &&& 224) >>> 5
        = (tailBytes (n / 4096)).length :=
      b1_and224_shr5 _ (Nat.mod_lt _ (by norm_num)) _ (by omega)
    rw [hlen]
    rw [if_neg (show ¬((tailBytes (n / 4096)).length + 2
      < (tailBytes (n / 4096)).length + 2) by omega)]
    have hv0a : (128 ||| n % 128) &&& 127 = n % 128 :=
      or128_and127 _ (Nat.mod_lt n (by norm_num))
    have hv0b : (n / 128 % 32 ||| (tailBytes (n / 4096)).length * 32) &&& 31 = n / 128 % 32 :=
      b1_and31 _ (Nat.mod_lt _ (by norm_num)) _ (by omega)
    have h27 : (2 : Nat) ^ 7 = 128 := by norm_num
    have hm : n % 128 < 2 ^ 7 := by
      rw [h27]
      exact Nat.mod_lt n (by norm_num)
    have hv0 : (n % 128) ||| ((n / 128 % 32) <<< 7) = n % 4096 := by
      rw [Nat.shiftLeft_eq, lor_mul_pow _ _ 7 hm, h27]
      omega
    rw [hv0a, hv0b, hv0]
    have h212 : (2 : Nat) ^ 12 = 4096 := by norm_num
    by_cases hL0 : (tailBytes (n / 4096)).length = 0
    · rw [if_pos hL0]
      have hnil : tailBytes (n / 4096) = [] := List.eq_nil_of_length_eq_zero hL0
      have hz : n / 4096 = 0 := (tailBytes_eq_nil_iff _).mp hnil
      have : n % 4096 = n := Nat.mod_eq_of_lt (by omega)
      rw [this]
    · rw [if_neg hL0, List.take_length]
      have hbound : (n / 4096) * 2 ^ 12 < 2 ^ 64 := by
        rw [h212]
        calc n / 4096 * 4096 ≤ n := Nat.div_mul_le_self n 4096
          _ < 2 ^ 64 := h64
      rw [foldShift_tailBytes (n / 4096) (n % 4096) 12 hbound]
      have hm12 : n % 4096 < 2 ^ 12 := by
        rw [h212]
        exact Nat.mod_lt n (by norm_num)
      rw [lor_mul_pow _ _ 12 hm12]
      have : n % 4096 + n / 4096 * 2 ^ 12 = n := by
        rw [h212]
        omega
      rw [this]

/-- The encoding is a single byte exactly for values that fit in 7 bits. -/
theorem compress_usize_length_one_iff (n : Nat) : (compress_usize n).length = 1 ↔ n ≤ 127 := by
  by_cases h : n ≤ 127
  · simp only [compress_usize]
    rw [if_pos h]
    simpa using h
  · simp only [compress_usize]
    rw [if_neg h]
    simp only [List.length_cons]
    omega

/-- `Deserializer::next_usize` reads `k` tail bytes as the first `k` of the stream. -/
theorem nextN_spec (k : Nat) : ∀ data : List Nat, k ≤ data.length →
    De.nextN k data = .ok (data.take k, data.drop k) := by
  induction k with
  | zero =>
    intro data _
    simp [De.nextN]
  | succ j ih =>
    intro data h
    match data with
    | [] => simp at h
    | b :: rest =>
      simp only [De.nextN, De.next]
      rw [ih rest (by simpa using h)]
      simp

/-- `Deserializer::next_usize` consumes exactly the bytes `compress_usize` wrote and
returns the original count. -/
theorem next_usize_compress (n : Nat) (h64 : n < 2 ^ 64) (rest : List Nat) :
    De.next_usize (compress_usize n ++ rest) = .ok (n, rest) := by
  by_cases h127 : n ≤ 127
  · have hc : compress_usize n = [n] := by
      simp only [compress_usize]
      rw [if_pos h127]
    rw [hc]
    simp only [List.cons_append, List.nil_append, De.next_usize, De.next]
    have hz : n &&& 128 = 0 := and128_of_lt n (by omega)
    rw [if_neg (by simp [hz])]
    simp only [decompress_usize]
    rw [if_pos hz]
  · push_neg at h127
    rw [compress_usize_large n h127 h64]
    have hL : (tailBytes (n / 4096)).length ≤ 7 := tail_length_le_7 n h64
    simp only [List.cons_append, De.next_usize, De.next]
    have hb0 : (128 ||| n % 128) &&& 128 = 128 := or128_and128 _ (Nat.mod_lt n (by norm_num))
    rw [if_pos (show (128 ||| n % 128) &&& 128 ≠ 0 by rw [hb0]; norm_num)]
    have hlen : ((n / 128 % 32 ||| (tailBytes (n / 4096)).length * 32) &&& 224) >>> 5
        = (tailBytes (n / 4096)).length :=
      b1_and224_shr5 _ (Nat.mod_lt _ (by norm_num)) _ (by omega)
    rw [hlen]
    rw [nextN_spec _ (tailBytes (n / 4096) ++ rest)
      (by rw [List.length_append]; exact Nat.le_add_right _ _)]
    rw [List.take_left, List.drop_left]
    have hrt := decompress_usize_compress_usize n h64
    rw [compress_usize_large n h127 h64] at hrt
    simp [hrt]

/-- `Deserializer::take_string` applied to a well-framed string encoding returns
exactly the string bytes and leaves the remainder untouched. -/
theorem take_string_encoded (s rest : List Nat) (hv : validUtf8 s = true)
    (h64 : s.length < 2 ^ 64) :
    De.take_string (compress_usize s.length ++ (s ++ rest)) = .ok (s, rest) := by
  simp only [De.take_string]
  rw [next_usize_compress s.length h64 (s ++ rest)]
  simp only [unwrapR, De.take]
  rw [if_neg (by rw [List.length_append]; omega)]
  rw [List.take_left, List.drop_left]
  simp [hv]

/-! The claims. -/

/-- C1: the buffered round-trip identity fails for enum non-unit variants.  The
encoder writes a newtype variant as the bare `u32` index followed by the payload,
while the decoder consumes one byte as a variant-kind flag and then reads a
string identifier; decoding the encoder's own output for `EnumA::A(0x41)` panics
(unknown variant) in both byte orders instead of reproducing the value. -/
theorem claim_C1_newtype_variant_roundtrip_eval :
    (∀ big : Bool,
      De.from_bytes_EnumA big (Ser.to_bytes_EnumA big (.A 0x41)) = .panicked) ∧
    (∀ big : Bool,
      De.from_bytes_EnumA big (Ser.to_bytes_EnumA big (.A 0x41)) ≠ .ok (.A 0x41, [])) := by
  constructor
  · intro big
    cases big <;> rfl
  · intro big
    cases big <;> decide

/-- C2: the streaming round trip fails for three-byte characters.  The streaming
encoder writes the euro sign U+20AC as its three UTF-8 bytes, but the streaming
decoder's `deserialize_char` reads the leading byte and then `take(3)` further
bytes, so it demands four bytes in total and reports `UnexpectedEndOfInput`
instead of returning the character. -/
theorem claim_C2_stream_char_roundtrip_eval :
    Stream.Ser.serialize_char 0x20AC = [0xE2, 0x82, 0xAC] ∧
    Stream.De.deserialize_char (Stream.Ser.serialize_char 0x20AC) =
      .error .UnexpectedEndOfInput := by
  exact ⟨rfl, rfl⟩

/-- C3: the usize count codec round-trips every 64-bit count, and its encoding is a
single byte exactly for counts of at most 127. -/
theorem claim_C3_count_roundtrip (n : Nat) (h : n < 2 ^ 64) :
    decompress_usize (compress_usize n) = .ok n ∧
      ((compress_usize n).length = 1 ↔ n ≤ 127) :=
  ⟨decompress_usize_compress_usize n h, compress_usize_length_one_iff n⟩

/-- Witness for C3 at the count 4096. -/
theorem claim_C3_count_roundtrip_witness :
    decompress_usize (compress_usize 4096) = .ok 4096 ∧
      ((compress_usize 4096).length = 1 ↔ 4096 ≤ 127) :=
  claim_C3_count_roundtrip 4096 (by norm_num)

/-- C4: the generic extended-range count codec does not round-trip.  `compress`
sets bit 6 (`BIT_7 = 0b1000000`) instead of bit 7 as the continuation marker, so
`decompress (compress 128)` returns `Ok(192)`, and `decompress (compress 127)`
panics on an out-of-bounds index - the crate's own tests expect both values to
round-trip. -/
theorem claim_C4_compress_roundtrip_eval :
    decompress (compress 128) = .ok 192 ∧
      decompress (compress 128) ≠ .ok 128 ∧
      decompress (compress 127) = .panicked := by
  refine ⟨rfl, ?_, rfl⟩
  decide

/-- C5: buffered little-endian encoding of `Point { x: 1u8, y: 2u8 }` is exactly
`FD 05 50 6F 69 6E 74 02 01 02`: the struct marker, count(5) and the five bytes of
"Point", the field count 2, then the two field bytes, with no field names. -/
theorem claim_C5_point_bytes :
    Ser.to_bytes_Point false 1 2 =
      [0xFD, 0x05, 0x50, 0x6F, 0x69, 0x6E, 0x74, 0x02, 0x01, 0x02] := by
  rfl

/-- C6: buffered decoding of the empty byte stream panics for every non-unit
shape instead of returning `UnexpectedEndOfInput`.  The internal reads do produce
`Err(UnexpectedEndOfInput)` (last conjunct), but every shape entry `.unwrap()`s
that error, which is a panic, so the error never reaches the caller. -/
theorem claim_C6_empty_input_eval (big : Bool) :
    De.deserialize_bool [] = .panicked ∧
    De.deserialize_u8 [] = .panicked ∧
    De.deserialize_i8 [] = .panicked ∧
    De.deserialize_uN 2 big [] = .panicked ∧
    De.deserialize_uN 4 big [] = .panicked ∧
    De.deserialize_uN 8 big [] = .panicked ∧
    De.deserialize_iN 2 big [] = .panicked ∧
    De.deserialize_iN 4 big [] = .panicked ∧
    De.deserialize_iN 8 big [] = .panicked ∧
    De.deserialize_char [] = .panicked ∧
    De.deserialize_str [] = .panicked ∧
    De.deserialize_bytes [] = .panicked ∧
    De.deserialize_option De.deserialize_u8 [] = .panicked ∧
    De.deserialize_seq De.deserialize_u8 [] = .panicked ∧
    De.deserialize_map De.deserialize_u8 De.deserialize_u8 [] = .panicked ∧
    De.deserialize_struct_header Ser.pointName [] = .panicked ∧
    De.from_bytes_EnumA big [] = .panicked ∧
    De.next [] = .error .UnexpectedEndOfInput :=
  ⟨rfl, rfl, rfl, rfl, rfl, rfl, rfl, rfl, rfl, rfl, rfl, rfl, rfl, rfl, rfl, rfl, rfl, rfl⟩

/-- C7: for any input byte, the buffered `deserialize_bool` yields `false` exactly
when the byte is `0x00` and `true` for every non-zero byte. -/
theorem claim_C7_bool_decode (b : Nat) (rest : List Nat) (_hb : b < 256) :
    (De.deserialize_bool (b :: rest) = .ok (false, rest) ↔ b = 0) ∧
    (b ≠ 0 → De.deserialize_bool (b :: rest) = .ok (true, rest)) := by
  by_cases hb0 : b = 0
  · subst hb0
    simp [De.deserialize_bool, De.next]
  · constructor
    · simp [De.deserialize_bool, De.next, hb0]
    · intro _
      simp [De.deserialize_bool, De.next, hb0]

/-- Witness for C7 at the byte 7. -/
theorem claim_C7_bool_decode_witness :
    (De.deserialize_bool [7] = .ok (false, []) ↔ (7 : Nat) = 0) ∧
    ((7 : Nat) ≠ 0 → De.deserialize_bool [7] = .ok (true, [])) :=
  claim_C7_bool_decode 7 [] (by norm_num)

/-- C8: buffered `deserialize_struct` on a well-framed struct encoding whose
embedded name differs from the expected one returns
`InvalidName { actual, expected }` carrying the decoded and the expected name. -/
theorem claim_C8_struct_name_mismatch (expected actual rest : List Nat)
    (hv : validUtf8 actual = true) (h64 : actual.length < 2 ^ 64)
    (hne : actual ≠ expected) :
    De.deserialize_struct_header expected
        (STRUCT :: (compress_usize actual.length ++ (actual ++ rest))) =
      .err (.InvalidName actual expected) := by
  simp only [De.deserialize_struct_header, De.next]
  rw [if_neg (show ¬(STRUCT ≠ STRUCT) by simp)]
  rw [take_string_encoded actual rest hv h64]
  simp only
  rw [if_pos hne]

/-- Witness for C8: expecting "B" while the stream carries "A". -/
theorem claim_C8_struct_name_mismatch_witness :
    De.deserialize_struct_header [0x42]
        (STRUCT :: (compress_usize ([0x41] : List Nat).length ++ ([0x41] ++ [7]))) =
      .err (.InvalidName [0x41] [0x42]) :=
  claim_C8_struct_name_mismatch [0x42] [0x41] [7] (by decide) (by norm_num) (by decide)

/-- C9: the bounded series iterator yields an element on each of the first `len`
requests, signals the end of the sequence on the request after the `len`-th
element, and answers any request beyond that - a request for an element past the
`len`-th - with `InvalidLength { actual: position, expected: len }`. -/
theorem claim_C9_series_bound (len p : Nat) :
    (p < len → series_next len p = .element (p + 1)) ∧
    (p = len → series_next len p = .endOfSeq (p + 1)) ∧
    (len < p → series_next len p = .lengthError (p + 1) len) := by
  refine ⟨?_, ?_, ?_⟩ <;> intro h <;> simp only [series_next]
  · rw [if_neg (by omega), if_neg (by omega)]
  · rw [if_pos (by omega)]
  · rw [if_neg (by omega), if_pos (by omega)]

/-- Witness for C9 with a series of length 3. -/
theorem claim_C9_series_bound_witness :
    series_next 3 1 = .element 2 ∧ series_next 3 3 = .endOfSeq 4 ∧
      series_next 3 5 = .lengthError 6 3 :=
  ⟨(claim_C9_series_bound 3 1).1 (by norm_num),
    (claim_C9_series_bound 3 3).2.1 rfl,
    (claim_C9_series_bound 3 5).2.2 (by norm_num)⟩

/-- C10: the streaming codec's bytes shape is unusable: the streaming encoder's
`serialize_bytes` and the streaming decoder's `deserialize_bytes` and
`deserialize_byte_buf` are `unimplemented!()` and panic on every input, while the
buffered encoder supports the same shape (length prefix plus raw bytes). -/
theorem claim_C10_stream_bytes_unimplemented (v src : List Nat) :
    Stream.Ser.serialize_bytes v = .panicked ∧
    Stream.De.deserialize_bytes src = .panicked ∧
    Stream.De.deserialize_byte_buf src = .panicked ∧
    Ser.serialize_bytes v = .ok (compress_usize v.length ++ v) :=
  ⟨rfl, rfl, rfl, rfl⟩

end SerdeBinaryAdv
